import Mathlib

/-!
Verification development for the BookMyShow booking-alert scraper.

The repository contains two variants of the same polling loop:
* an incremental per-theatre variant (`MovieDetails` with a `Theatres` list:
  one notification per newly seen theatre, targets never settle), and
* a first-availability variant (`MovieDetails` without `Theatres`: one summary
  notification on the first non-empty listing, then `Found` is set).

Both are embedded below.  External effects (the headless browser, the Telegram
API, the IFTTT webhook) appear as oracles: a render oracle describing what each
target's page lookup returned, and delivery oracles returning success/failure
booleans whose values the program only logs.  Go strings in the date field are
ASCII, so Go byte slicing coincides with character slicing.
-/

namespace BMS

/-- Go string slicing `s[a:b]`: defined when `a ≤ b ≤ len(s)`, otherwise the
program panics (modelled as `none`). -/
def goSlice (s : String) (a b : Nat) : Option String :=
  if a ≤ b ∧ b ≤ s.length then some (String.mk ((s.data.drop a).take (b - a))) else none

/-- `formattedDate := fmt.Sprintf("%s-%s-%s", showDate[6:8], showDate[4:6], showDate[0:4])`
from both variants; `none` models the slice-out-of-range panic. -/
def formatDate (s : String) : Option String :=
  match goSlice s 6 8, goSlice s 4 6, goSlice s 0 4 with
  | some d, some mo, some y => some (d ++ "-" ++ mo ++ "-" ++ y)
  | _, _, _ => none

/-- A notification payload: the fields interpolated into the Telegram message.
The first-availability variant carries no theatre name (`theatre = none`) and
uses `shows` for the total theatre count. -/
structure NotificationEvent where
  movie : String
  formattedDate : String
  theatre : Option String
  shows : Nat
  deriving DecidableEq, Repr

/-- `MovieDetails` of the incremental variant (`bms.json` record with the
`theatres` list). -/
structure MovieDetails where
  name : String
  slugName : String
  code : String
  city : String
  cityCode : String
  date : String
  found : Bool
  theatres : List String
  deriving DecidableEq, Repr

/-- `TheatreDetails` of the incremental variant. -/
structure TheatreDetails where
  name : String
  showCount : Nat
  deriving DecidableEq, Repr

/-- One theatre item element on the rendered page, as the incremental variant
inspects it.  `nameText` is the result of the name-div lookup plus `Text()`:
`none` means `theatreEl.Element(...)` returned an error (the returned element
is nil, and the subsequent `.Text()` call dereferences it); `some s` is the
text read from the found element.  `showEls` is `len(theatreShowsEl)`; a
failed `Elements` lookup yields the zero value, count 0. -/
structure ItemElement where
  nameText : Option String
  showEls : Nat
  deriving DecidableEq, Repr

/-- Result of acquiring and querying the rendered page for one target in the
incremental variant.  `navFail` covers the `Must`-call panics while connecting,
navigating or waiting for DOM stability; `containerFail` is an error from
`page.Element(container)`; `elementsFail` an error from
`theatreContainer.Elements(item)`; `items` the element list found. -/
inductive RenderOutcome where
  | navFail
  | containerFail
  | elementsFail
  | items (els : List ItemElement)
  deriving DecidableEq, Repr

/-- Extraction of one `TheatreDetails` from an item element.  When the name-div
lookup failed the nil element is dereferenced: a panic, modelled `none`. -/
def extractItem (el : ItemElement) : Option TheatreDetails :=
  match el.nameText with
  | none => none
  | some t => some { name := t, showCount := el.showEls }

/-- The extraction loop over the item elements (lines building
`theatreDetails`): a nil dereference anywhere faults the whole pass. -/
def extractTheatres : List ItemElement → Option (List TheatreDetails)
  | [] => some []
  | el :: rest =>
    match extractItem el with
    | none => none
    | some t =>
      match extractTheatres rest with
      | none => none
      | some ts => some (t :: ts)

/-- The reconciliation loop of the incremental variant: skip empty names, skip
names already in `theatres`, otherwise append to `theatres` (the membership
check sees the updates made earlier in the same pass) and record the theatre in
`newTheatres`.  Returns the updated target and `newTheatres`. -/
def reconcileIncremental (m : MovieDetails) : List TheatreDetails → MovieDetails × List TheatreDetails
  | [] => (m, [])
  | t :: rest =>
    if t.name = "" then
      reconcileIncremental m rest
    else if m.theatres.contains t.name then
      reconcileIncremental m rest
    else
      let r := reconcileIncremental { m with theatres := m.theatres ++ [t.name] } rest
      (r.1, t :: r.2)

/-- Processing of one not-yet-found target in the incremental variant, from
page acquisition to the notification list.  `none` models a panic that unwinds
the whole run: rendering failure, a nil dereference during extraction, or the
date slice when `newTheatres` is non-empty.  Container/element lookup errors
are logged and skip the target (`continue`). -/
def processUnfound (env : MovieDetails → RenderOutcome) (m : MovieDetails) :
    Option (MovieDetails × List NotificationEvent) :=
  match env m with
  | .navFail => none
  | .containerFail => some (m, [])
  | .elementsFail => some (m, [])
  | .items els =>
    match extractTheatres els with
    | none => none
    | some obs =>
      let r := reconcileIncremental m obs
      match r.2 with
      | [] => some (r.1, [])
      | news =>
        match formatDate m.date with
        | none => none
        | some fd =>
          some (r.1, news.map fun t =>
            { movie := m.name, formattedDate := fd, theatre := some t.name, shows := t.showCount })

/-- Output of an incremental run that reached the save: the mutated movie
list, the notification events in emission order, and the result of each
Telegram send (a boolean the program only logs). -/
structure RunOut where
  movies : List MovieDetails
  events : List NotificationEvent
  sendResults : List Bool
  deriving DecidableEq, Repr

/-- The incremental variant's main loop over `moviesList`: found targets are
skipped untouched; each unfound target is processed and its notifications
dispatched; `none` models a panic that prevents `saveMoviesToJSON` from
running. -/
def runIncremental (env : MovieDetails → RenderOutcome) (send : NotificationEvent → Bool) :
    List MovieDetails → Option RunOut
  | [] => some ⟨[], [], []⟩
  | m :: rest =>
    if m.found then
      match runIncremental env send rest with
      | none => none
      | some r => some ⟨m :: r.movies, r.events, r.sendResults⟩
    else
      match processUnfound env m with
      | none => none
      | some (m2, evs) =>
        match runIncremental env send rest with
        | none => none
        | some r => some ⟨m2 :: r.movies, evs ++ r.events, evs.map send ++ r.sendResults⟩

/-- `MovieDetails` of the first-availability variant: same record without the
`theatres` list. -/
structure MovieDetailsFA where
  name : String
  slugName : String
  code : String
  city : String
  cityCode : String
  date : String
  found : Bool
  deriving DecidableEq, Repr

/-- Render outcome for the first-availability variant, which only uses
`len(theatreElements)` and never inspects the individual elements. -/
inductive RenderOutcomeFA where
  | navFail
  | containerFail
  | elementsFail
  | items (count : Nat)
  deriving DecidableEq, Repr

/-- Processing of one not-yet-found target in the first-availability variant:
on a non-empty element list set `Found`, format the date (a too-short date
panics, `none`) and build the single summary notification carrying the total
theatre count. -/
def processUnfoundFA (env : MovieDetailsFA → RenderOutcomeFA) (m : MovieDetailsFA) :
    Option (MovieDetailsFA × List NotificationEvent) :=
  match env m with
  | .navFail => none
  | .containerFail => some (m, [])
  | .elementsFail => some (m, [])
  | .items n =>
    if 0 < n then
      match formatDate m.date with
      | none => none
      | some fd =>
        some ({ m with found := true },
          [{ movie := m.name, formattedDate := fd, theatre := none, shows := n }])
    else
      some (m, [])

/-- Output of a first-availability run that reached the save: mutated list,
events, Telegram send results, and IFTTT call-trigger results (both
booleans are only logged by the program). -/
structure RunOutFA where
  movies : List MovieDetailsFA
  events : List NotificationEvent
  sendResults : List Bool
  callResults : List Bool
  deriving DecidableEq, Repr

/-- The first-availability variant's main loop: found targets are skipped
before any rendering; for each summary event the Telegram send and then the
IFTTT call are attempted, their failures only logged. -/
def runFA (env : MovieDetailsFA → RenderOutcomeFA) (send : NotificationEvent → Bool)
    (call : String → Bool) : List MovieDetailsFA → Option RunOutFA
  | [] => some ⟨[], [], [], []⟩
  | m :: rest =>
    if m.found then
      match runFA env send call rest with
      | none => none
      | some r => some ⟨m :: r.movies, r.events, r.sendResults, r.callResults⟩
    else
      match processUnfoundFA env m with
      | none => none
      | some (m2, evs) =>
        match runFA env send call rest with
        | none => none
        | some r =>
          some ⟨m2 :: r.movies, evs ++ r.events,
            evs.map send ++ r.sendResults,
            evs.map (fun _ => call m.name) ++ r.callResults⟩

/-! ## State store: the JSON document (incremental variant's record)

`loadMoviesFromJSON` is `os.ReadFile` plus `json.Unmarshal` into
`[]MovieDetails`; `saveMoviesToJSON` is `json.MarshalIndent` plus
`os.WriteFile`.  We model the parsed JSON document and the exact-tag fragment
of Go's struct (un)marshalling: keys match the struct tags, a later duplicate
key overwrites an earlier one, a missing or `null` field leaves the zero
value, a type mismatch is an error. -/

/-- A parsed JSON value (the fragment the state document uses). -/
inductive JVal where
  | jnull
  | jstr (s : String)
  | jbool (b : Bool)
  | jarr (elems : List JVal)
  | jobj (fields : List (String × JVal))

/-- The value Go's object decoding leaves in a field: the last occurrence of
the key wins. -/
def lookupLast (k : String) : List (String × JVal) → Option JVal
  | [] => none
  | (k2, v) :: rest =>
    match lookupLast k rest with
    | some v2 => some v2
    | none => if k2 = k then some v else none

/-- Unmarshal a string field: missing or `null` keeps the zero value `""`. -/
def decodeStr : Option JVal → Option String
  | none => some ""
  | some .jnull => some ""
  | some (.jstr s) => some s
  | some _ => none

/-- Unmarshal a bool field: missing or `null` keeps the zero value `false`. -/
def decodeBool : Option JVal → Option Bool
  | none => some false
  | some .jnull => some false
  | some (.jbool b) => some b
  | some _ => none

/-- Unmarshal the elements of a `[]string`. -/
def decodeStrElems : List JVal → Option (List String)
  | [] => some []
  | .jstr s :: rest =>
    match decodeStrElems rest with
    | none => none
    | some l => some (s :: l)
  | _ => none

/-- Unmarshal a `[]string` field: missing or `null` keeps the nil slice. -/
def decodeStrList : Option JVal → Option (List String)
  | none => some []
  | some .jnull => some []
  | some (.jarr xs) => decodeStrElems xs
  | some _ => none

/-- `json.Unmarshal` of one `MovieDetails` record. -/
def decodeMovie : JVal → Option MovieDetails
  | .jobj fields =>
    match decodeStr (lookupLast "name" fields),
        decodeStr (lookupLast "slug_name" fields),
        decodeStr (lookupLast "code" fields),
        decodeStr (lookupLast "city" fields),
        decodeStr (lookupLast "city_code" fields),
        decodeStr (lookupLast "date" fields),
        decodeBool (lookupLast "found" fields),
        decodeStrList (lookupLast "theatres" fields) with
    | some name, some slug, some code, some city, some ccode, some date, some fnd, some ths =>
      some ⟨name, slug, code, city, ccode, date, fnd, ths⟩
    | _, _, _, _, _, _, _, _ => none
  | _ => none

/-- Unmarshal the elements of the top-level array. -/
def decodeMovieElems : List JVal → Option (List MovieDetails)
  | [] => some []
  | x :: rest =>
    match decodeMovie x with
    | none => none
    | some m =>
      match decodeMovieElems rest with
      | none => none
      | some ms => some (m :: ms)

/-- `loadMoviesFromJSON` after file read: `json.Unmarshal` into
`[]MovieDetails` (`null` yields the nil slice). -/
def decodeMovies : JVal → Option (List MovieDetails)
  | .jnull => some []
  | .jarr xs => decodeMovieElems xs
  | _ => none

/-- `json.MarshalIndent` of one record: keys in struct order with the exact
struct tags. -/
def encodeMovie (m : MovieDetails) : JVal :=
  .jobj [("name", .jstr m.name), ("slug_name", .jstr m.slugName),
    ("code", .jstr m.code), ("city", .jstr m.city),
    ("city_code", .jstr m.cityCode), ("date", .jstr m.date),
    ("found", .jbool m.found), ("theatres", .jarr (m.theatres.map JVal.jstr))]

/-- `saveMoviesToJSON` body: marshal the whole list. -/
def encodeMovies (ms : List MovieDetails) : JVal :=
  .jarr (ms.map encodeMovie)

/-! ## Spec-side reconciliation and concrete fixtures -/

/-- Reconciliation as the specification words it, for comparison with
`reconcileIncremental`: "for each observation whose name is not in
`target.discovered`, add it to `discovered` and emit one NotificationEvent",
with empty names discarded and events kept in extraction order. -/
def specNewObservations (discovered : List String) : List TheatreDetails → List TheatreDetails
  | [] => []
  | t :: rest =>
    if t.name ≠ "" ∧ t.name ∉ discovered then
      t :: specNewObservations (discovered ++ [t.name]) rest
    else
      specNewObservations discovered rest

/-- The persisted-state-plus-events view of an incremental run: what the run
writes back and notifies, with the delivery booleans (which the program only
logs) projected away. -/
def stateAndEvents : Option RunOut → Option (List MovieDetails × List NotificationEvent)
  | none => none
  | some r => some (r.movies, r.events)

/-- Same projection for the first-availability variant. -/
def stateAndEventsFA : Option RunOutFA → Option (List MovieDetailsFA × List NotificationEvent)
  | none => none
  | some r => some (r.movies, r.events)

/-- A sample incremental target that has already discovered "Theatre X"
(spec Scenario B). -/
def sampleTarget : MovieDetails :=
  { name := "L2: Empuraan", slugName := "l2-empuraan", code := "ET00310216",
    city := "kochi", cityCode := "koch", date := "20250327", found := false,
    theatres := ["Theatre X"] }

/-- Scenario B observations: "Theatre X" already discovered, "Theatre Y" new. -/
def obsB : List TheatreDetails :=
  [{ name := "Theatre X", showCount := 5 }, { name := "Theatre Y", showCount := 1 }]

/-- A render oracle whose page lists the Scenario B theatres. -/
def envB : MovieDetails → RenderOutcome :=
  fun _ => .items [{ nameText := some "Theatre X", showEls := 5 },
    { nameText := some "Theatre Y", showEls := 1 }]

/-- A sample first-availability target that is not yet found. -/
def sampleTargetFA : MovieDetailsFA :=
  { name := "L2: Empuraan", slugName := "l2-empuraan", code := "ET00310216",
    city := "kochi", cityCode := "koch", date := "20250327", found := false }

/-- The outcome of running the incremental variant on `sampleTarget` against
`envB` with an all-success delivery oracle. -/
def runOutB : RunOut :=
  ⟨[{ sampleTarget with theatres := ["Theatre X", "Theatre Y"] }],
    [{ movie := "L2: Empuraan", formattedDate := "27-03-2025",
       theatre := some "Theatre Y", shows := 1 }],
    [true]⟩

/-- A state document whose record has shuffled keys, a duplicate `name` key
(the later one wins, as in Go) and an unknown key-free layout; it decodes to
`sampleTarget`. -/
def docB : JVal :=
  .jarr [.jobj [("found", .jbool false), ("city", .jstr "kochi"),
    ("name", .jstr "Empuraan"), ("date", .jstr "20250327"),
    ("name", .jstr "L2: Empuraan"), ("slug_name", .jstr "l2-empuraan"),
    ("code", .jstr "ET00310216"), ("city_code", .jstr "koch"),
    ("theatres", .jarr [.jstr "Theatre X"])]]

/-! ## Helper lemmas -/

theorem reconcileIncremental_eq_spec (obs : List TheatreDetails) : ∀ m : MovieDetails,
    reconcileIncremental m obs =
      ({ m with theatres :=
          m.theatres ++ (specNewObservations m.theatres obs).map TheatreDetails.name },
        specNewObservations m.theatres obs) := by
  induction obs with
  | nil => intro m; simp [reconcileIncremental, specNewObservations]
  | cons t rest ih =>
    intro m
    by_cases h1 : t.name = ""
    · simp [reconcileIncremental, specNewObservations, h1, ih]
    · by_cases h2 : t.name ∈ m.theatres
      · have hc : m.theatres.contains t.name = true := List.elem_iff.mpr h2
        simp [reconcileIncremental, specNewObservations, h1, h2, hc, ih]
      · have hc : m.theatres.contains t.name = false := by
          simp [List.elem_iff]; exact h2
        simp [reconcileIncremental, specNewObservations, h1, h2, hc, ih]

theorem reconcile_theatres_extend (obs : List TheatreDetails) : ∀ m : MovieDetails,
    ∃ l, (reconcileIncremental m obs).1.theatres = m.theatres ++ l := by
  induction obs with
  | nil => intro m; exact ⟨[], by simp [reconcileIncremental]⟩
  | cons t rest ih =>
    intro m
    by_cases h1 : t.name = ""
    · simpa [reconcileIncremental, h1] using ih m
    · by_cases h2 : t.name ∈ m.theatres
      · simpa [reconcileIncremental, h1, h2] using ih m
      · obtain ⟨l, hl⟩ := ih { m with theatres := m.theatres ++ [t.name] }
        exact ⟨t.name :: l, by simp [reconcileIncremental, h1, h2, hl]⟩

theorem reconcile_new_names_fresh (obs : List TheatreDetails) : ∀ (m : MovieDetails)
    (t : TheatreDetails), t ∈ (reconcileIncremental m obs).2 → t.name ∉ m.theatres := by
  induction obs with
  | nil => intro m t h; simp [reconcileIncremental] at h
  | cons u rest ih =>
    intro m t h
    by_cases h1 : u.name = ""
    · exact ih m t (by simpa [reconcileIncremental, h1] using h)
    · by_cases h2 : u.name ∈ m.theatres
      · exact ih m t (by simpa [reconcileIncremental, h1, h2] using h)
      · simp [reconcileIncremental, h1, h2] at h
        rcases h with h | h
        · subst h
          exact h2
        · have := ih _ t h
          simp at this
          exact this.1

theorem processUnfound_theatres_extend (env : MovieDetails → RenderOutcome)
    (m m2 : MovieDetails) (evs : List NotificationEvent)
    (hp : processUnfound env m = some (m2, evs)) :
    ∃ l, m2.theatres = m.theatres ++ l := by
  cases henv : env m with
  | navFail => simp [processUnfound, henv] at hp
  | containerFail =>
    simp [processUnfound, henv] at hp
    exact ⟨[], by simp [← hp.1]⟩
  | elementsFail =>
    simp [processUnfound, henv] at hp
    exact ⟨[], by simp [← hp.1]⟩
  | items els =>
    rcases hex : extractTheatres els with _ | obs
    · simp [processUnfound, henv, hex] at hp
    · rcases hr : (reconcileIncremental m obs).2 with _ | ⟨t0, ts⟩
      · simp [processUnfound, henv, hex, hr] at hp
        obtain ⟨hl, _⟩ := hp
        obtain ⟨l, h⟩ := reconcile_theatres_extend obs m
        exact ⟨l, by rw [← hl, h]⟩
      · rcases hfd : formatDate m.date with _ | fd
        · simp [processUnfound, henv, hex, hr, hfd] at hp
        · simp [processUnfound, henv, hex, hr, hfd] at hp
          obtain ⟨hl, _⟩ := hp
          obtain ⟨l, h⟩ := reconcile_theatres_extend obs m
          exact ⟨l, by rw [← hl, h]⟩

theorem run_movies_extend (env : MovieDetails → RenderOutcome)
    (send : NotificationEvent → Bool) : ∀ (ms : List MovieDetails) (out : RunOut),
    runIncremental env send ms = some out →
    List.Forall₂ (fun a b => ∃ l, b.theatres = a.theatres ++ l) ms out.movies := by
  intro ms
  induction ms with
  | nil =>
    intro out h
    simp [runIncremental] at h
    simp [← h]
  | cons m rest ih =>
    intro out h
    by_cases hf : m.found = true
    · rcases hr : runIncremental env send rest with _ | r
      · simp [runIncremental, hf, hr] at h
      · simp [runIncremental, hf, hr] at h
        rw [← h]
        exact List.Forall₂.cons ⟨[], by simp⟩ (ih r hr)
    · rcases hp : processUnfound env m with _ | ⟨m2, evs⟩
      · simp [runIncremental, hf, hp] at h
      · rcases hr : runIncremental env send rest with _ | r
        · simp [runIncremental, hf, hp, hr] at h
        · simp [runIncremental, hf, hp, hr] at h
          rw [← h]
          exact List.Forall₂.cons (processUnfound_theatres_extend env m m2 evs hp) (ih r hr)

theorem run_send_invariant (env : MovieDetails → RenderOutcome)
    (s1 s2 : NotificationEvent → Bool) : ∀ ms : List MovieDetails,
    stateAndEvents (runIncremental env s1 ms) = stateAndEvents (runIncremental env s2 ms) := by
  intro ms
  induction ms with
  | nil => rfl
  | cons m rest ih =>
    rcases h1 : runIncremental env s1 rest with _ | r1 <;>
      rcases h2 : runIncremental env s2 rest with _ | r2 <;>
        rw [h1, h2] at ih <;> simp [stateAndEvents] at ih
    · by_cases hf : m.found = true
      · simp [runIncremental, hf, h1, h2, stateAndEvents]
      · rcases hp : processUnfound env m with _ | ⟨m2, evs⟩ <;>
          simp [runIncremental, hf, hp, h1, h2, stateAndEvents]
    · by_cases hf : m.found = true
      · simp [runIncremental, hf, h1, h2, stateAndEvents, ih.1, ih.2]
      · rcases hp : processUnfound env m with _ | ⟨m2, evs⟩ <;>
          simp [runIncremental, hf, hp, h1, h2, stateAndEvents, ih.1, ih.2]

theorem runFA_delivery_invariant (env : MovieDetailsFA → RenderOutcomeFA)
    (s1 s2 : NotificationEvent → Bool) (k1 k2 : String → Bool) :
    ∀ ms : List MovieDetailsFA,
    stateAndEventsFA (runFA env s1 k1 ms) = stateAndEventsFA (runFA env s2 k2 ms) := by
  intro ms
  induction ms with
  | nil => rfl
  | cons m rest ih =>
    rcases h1 : runFA env s1 k1 rest with _ | r1 <;>
      rcases h2 : runFA env s2 k2 rest with _ | r2 <;>
        rw [h1, h2] at ih <;> simp [stateAndEventsFA] at ih
    · by_cases hf : m.found = true
      · simp [runFA, hf, h1, h2, stateAndEventsFA]
      · rcases hp : processUnfoundFA env m with _ | ⟨m2, evs⟩ <;>
          simp [runFA, hf, hp, h1, h2, stateAndEventsFA]
    · by_cases hf : m.found = true
      · simp [runFA, hf, h1, h2, stateAndEventsFA, ih.1, ih.2]
      · rcases hp : processUnfoundFA env m with _ | ⟨m2, evs⟩ <;>
          simp [runFA, hf, hp, h1, h2, stateAndEventsFA, ih.1, ih.2]

theorem formatDate_isSome (s : String) (h : 8 ≤ s.length) :
    ∃ fd, formatDate s = some fd := by
  rcases hfd : formatDate s with _ | fd
  · exfalso
    simp [formatDate, goSlice, h, show (6:Nat) ≤ s.length by omega,
      show (4:Nat) ≤ s.length by omega] at hfd
  · exact ⟨fd, rfl⟩

theorem decodeStrElems_jstr : ∀ l : List String,
    decodeStrElems (l.map JVal.jstr) = some l := by
  intro l
  induction l with
  | nil => rfl
  | cons a l ih => simp [decodeStrElems, List.map, ih]

theorem decodeMovie_encodeMovie (m : MovieDetails) :
    decodeMovie (encodeMovie m) = some m := by
  cases m with
  | mk name slug code city ccode date fnd ths =>
    simp [decodeMovie, encodeMovie, lookupLast, decodeStr, decodeBool, decodeStrList,
      decodeStrElems_jstr]

theorem decodeMovieElems_encode : ∀ ms : List MovieDetails,
    decodeMovieElems (ms.map encodeMovie) = some ms := by
  intro ms
  induction ms with
  | nil => rfl
  | cons m rest ih => simp [decodeMovieElems, List.map, decodeMovie_encodeMovie, ih]

/-! ## Claim theorems -/

/-- Claim C1: per-theatre incremental reconciliation adds to `theatres`
exactly the observation names that are non-empty and not already members (the
membership check tracking additions made earlier in the pass), pairing each
new name with one notification in extraction order; the Scenario B instance
yields exactly one event, for "Theatre Y" with count 1, and `theatres`
becomes `["Theatre X", "Theatre Y"]`. -/
theorem incremental_reconcile_spec :
    (∀ (m : MovieDetails) (obs : List TheatreDetails),
      reconcileIncremental m obs =
        ({ m with theatres :=
            m.theatres ++ (specNewObservations m.theatres obs).map TheatreDetails.name },
          specNewObservations m.theatres obs)) ∧
    reconcileIncremental sampleTarget obsB =
      ({ sampleTarget with theatres := ["Theatre X", "Theatre Y"] },
        [{ name := "Theatre Y", showCount := 1 }]) ∧
    processUnfound envB sampleTarget =
      some ({ sampleTarget with theatres := ["Theatre X", "Theatre Y"] },
        [{ movie := "L2: Empuraan", formattedDate := "27-03-2025",
           theatre := some "Theatre Y", shows := 1 }]) :=
  ⟨fun m obs => reconcileIncremental_eq_spec obs m, by decide, by decide⟩

/-- Claim C2: in first-availability mode an unsettled target with a non-empty
element list is marked found and exactly one summary notification is emitted,
carrying the total theatre count rather than one event per theatre. -/
theorem first_availability_settles (env : MovieDetailsFA → RenderOutcomeFA)
    (m : MovieDetailsFA) (n : Nat) (hf : m.found = false)
    (he : env m = .items n) (hn : 0 < n) (hd : 8 ≤ m.date.length) :
    ∃ fd, formatDate m.date = some fd ∧
      processUnfoundFA env m = some ({ m with found := true },
        [{ movie := m.name, formattedDate := fd, theatre := none, shows := n }]) := by
  obtain ⟨fd, hfd⟩ := formatDate_isSome m.date hd
  exact ⟨fd, hfd, by simp [processUnfoundFA, he, hn, hfd]⟩

/-- Witness for C2: Scenario D, a 4-theatre listing settles the sample
target with one summary event of count 4. -/
theorem first_availability_settles_instance :
    sampleTargetFA.found = false ∧ 0 < 4 ∧ 8 ≤ sampleTargetFA.date.length ∧
    (∃ fd, formatDate sampleTargetFA.date = some fd ∧
      processUnfoundFA (fun _ => .items 4) sampleTargetFA =
        some ({ sampleTargetFA with found := true },
          [{ movie := sampleTargetFA.name, formattedDate := fd,
             theatre := none, shows := 4 }])) :=
  ⟨by decide, by decide, by decide,
    first_availability_settles (fun _ => .items 4) sampleTargetFA 4 (by decide) rfl
      (by decide) (by decide)⟩

/-- Claim C3 counterexample: extraction keeps display names verbatim (no
whitespace trimming), so an observation whose name is a single space is not
discarded: it is added to `theatres` and produces a new-theatre entry. -/
theorem name_not_trimmed_cex :
    extractItem { nameText := some " PVR Lulu ", showEls := 3 } =
      some { name := " PVR Lulu ", showCount := 3 } ∧
    reconcileIncremental { sampleTarget with theatres := [] }
        [{ name := " ", showCount := 2 }] =
      ({ sampleTarget with theatres := [" "] }, [{ name := " ", showCount := 2 }]) := by
  decide

/-- Claim C3 amended: names are used verbatim and an item is discarded
exactly when its name is the empty string. -/
theorem only_exact_empty_discarded :
    (∀ (s : String) (k : Nat),
      extractItem { nameText := some s, showEls := k } = some { name := s, showCount := k }) ∧
    (∀ (m : MovieDetails) (k : Nat) (rest : List TheatreDetails),
      reconcileIncremental m ({ name := "", showCount := k } :: rest) =
        reconcileIncremental m rest) :=
  ⟨fun _ _ => rfl, fun m k rest => by simp [reconcileIncremental]⟩

/-- Claim C4 counterexample: a navigation failure for a single unsettled
target (a `Must`-call panic) aborts the whole run, so the persist step is not
reached even though the state load succeeded. -/
theorem nav_failure_aborts_cex :
    sampleTarget.found = false ∧
    runIncremental (fun _ => RenderOutcome.navFail) (fun _ => true) [sampleTarget] = none := by
  decide

/-- Claim C4 amended: failures locating the theatre container or the theatre
element list only skip that target (unchanged, no events) and the run
continues; when every unsettled target fails only in those lookups the run
reaches the save with the list unchanged and no events. -/
theorem lookup_failure_skips_target :
    (∀ (env : MovieDetails → RenderOutcome) (send : NotificationEvent → Bool)
      (m : MovieDetails) (rest : List MovieDetails), m.found = false →
      (env m = RenderOutcome.containerFail ∨ env m = RenderOutcome.elementsFail) →
      runIncremental env send (m :: rest) =
        (runIncremental env send rest).map (fun r => ⟨m :: r.movies, r.events, r.sendResults⟩)) ∧
    (∀ (env : MovieDetails → RenderOutcome) (send : NotificationEvent → Bool)
      (ms : List MovieDetails),
      (∀ m, m ∈ ms → m.found = false →
        env m = RenderOutcome.containerFail ∨ env m = RenderOutcome.elementsFail) →
      runIncremental env send ms = some ⟨ms, [], []⟩) := by
  constructor
  · intro env send m rest hf henv
    rcases hr : runIncremental env send rest with _ | r <;>
      rcases henv with h | h <;>
        simp [runIncremental, hf, processUnfound, h, hr]
  · intro env send ms
    induction ms with
    | nil => intro _; rfl
    | cons m rest ih =>
      intro h
      have hrest := ih fun x hx => h x (List.mem_cons_of_mem m hx)
      by_cases hf : m.found = true
      · simp [runIncremental, hf, hrest]
      · rcases h m (List.mem_cons_self m rest) (by simpa using hf) with hc | hc <;>
          simp [runIncremental, hf, processUnfound, hc, hrest]

/-- Witness for the amended C4: with a container-lookup failure on every
target, a two-target run skips both and reaches the save unchanged. -/
theorem lookup_failure_skips_target_instance :
    sampleTarget.found = false ∧
    runIncremental (fun _ => RenderOutcome.containerFail) (fun _ => true)
        (sampleTarget :: [sampleTarget]) =
      (runIncremental (fun _ => RenderOutcome.containerFail) (fun _ => true)
        [sampleTarget]).map (fun r => ⟨sampleTarget :: r.movies, r.events, r.sendResults⟩) ∧
    runIncremental (fun _ => RenderOutcome.containerFail) (fun _ => true)
        [sampleTarget, sampleTarget] = some ⟨[sampleTarget, sampleTarget], [], []⟩ :=
  ⟨by decide,
    lookup_failure_skips_target.1 _ _ sampleTarget [sampleTarget] (by decide) (Or.inl rfl),
    lookup_failure_skips_target.2 _ _ [sampleTarget, sampleTarget] (fun _ _ _ => Or.inl rfl)⟩

/-- Claim C5: within a run the `theatres` set of every target only grows:
the saved list is the input list with each target's `theatres` extended by a
(possibly empty) suffix, and a single reconciliation likewise only appends. -/
theorem discovered_monotone (env : MovieDetails → RenderOutcome)
    (send : NotificationEvent → Bool) (ms : List MovieDetails) (out : RunOut)
    (h : runIncremental env send ms = some out) :
    List.Forall₂ (fun a b => ∃ l, b.theatres = a.theatres ++ l) ms out.movies ∧
    ∀ (m : MovieDetails) (obs : List TheatreDetails),
      ∃ l, (reconcileIncremental m obs).1.theatres = m.theatres ++ l :=
  ⟨run_movies_extend env send ms out h, fun m obs => reconcile_theatres_extend obs m⟩

/-- Witness for C5 at the Scenario B run. -/
theorem discovered_monotone_instance :
    runIncremental envB (fun _ => true) [sampleTarget] = some runOutB ∧
    (List.Forall₂ (fun a b => ∃ l, b.theatres = a.theatres ++ l)
        [sampleTarget] runOutB.movies ∧
      ∀ (m : MovieDetails) (obs : List TheatreDetails),
        ∃ l, (reconcileIncremental m obs).1.theatres = m.theatres ++ l) :=
  ⟨by decide, discovered_monotone envB (fun _ => true) [sampleTarget] runOutB (by decide)⟩

/-- Claim C6: the persisted state and the emitted events of a run are the same
functions of the render oracle whatever the delivery oracles return (delivery
failure rolls nothing back, in either variant), and a reconciliation only
emits events for names not already in `theatres`, so a theatre recorded by a
failed-delivery run is never re-notified. -/
theorem delivery_failure_no_rollback
    (env : MovieDetails → RenderOutcome) (s1 s2 : NotificationEvent → Bool)
    (envF : MovieDetailsFA → RenderOutcomeFA) (sF1 sF2 : NotificationEvent → Bool)
    (k1 k2 : String → Bool) (ms : List MovieDetails) (msF : List MovieDetailsFA)
    (m : MovieDetails) (obs : List TheatreDetails) (t : TheatreDetails)
    (h : t ∈ (reconcileIncremental m obs).2) :
    stateAndEvents (runIncremental env s1 ms) = stateAndEvents (runIncremental env s2 ms) ∧
    stateAndEventsFA (runFA envF sF1 k1 msF) = stateAndEventsFA (runFA envF sF2 k2 msF) ∧
    t.name ∉ m.theatres :=
  ⟨run_send_invariant env s1 s2 ms, runFA_delivery_invariant envF sF1 sF2 k1 k2 msF,
    reconcile_new_names_fresh obs m t h⟩

/-- Witness for C6: Scenario B with an all-failure delivery oracle persists
the same state and events as with an all-success one, and the newly emitted
"Theatre Y" was not already discovered. -/
theorem delivery_failure_no_rollback_instance :
    ({ name := "Theatre Y", showCount := 1 } : TheatreDetails) ∈
      (reconcileIncremental sampleTarget obsB).2 ∧
    (stateAndEvents (runIncremental envB (fun _ => true) [sampleTarget]) =
        stateAndEvents (runIncremental envB (fun _ => false) [sampleTarget]) ∧
      stateAndEventsFA (runFA (fun _ => .items 4) (fun _ => true) (fun _ => true)
          [sampleTargetFA]) =
        stateAndEventsFA (runFA (fun _ => .items 4) (fun _ => false) (fun _ => false)
          [sampleTargetFA]) ∧
      ({ name := "Theatre Y", showCount := 1 } : TheatreDetails).name ∉
        sampleTarget.theatres) :=
  ⟨by decide,
    delivery_failure_no_rollback envB (fun _ => true) (fun _ => false)
      (fun _ => .items 4) (fun _ => true) (fun _ => false) (fun _ => true) (fun _ => false)
      [sampleTarget] [sampleTargetFA] sampleTarget obsB
      { name := "Theatre Y", showCount := 1 } (by decide)⟩

/-- Claim C7: an empty observation list mutates nothing and emits nothing in
either mode: the reconciliation returns the target untouched, and processing
a target whose page lists no theatre items returns it untouched with no
events, in both variants. -/
theorem empty_observations_no_mutation (env : MovieDetails → RenderOutcome)
    (m : MovieDetails) (envF : MovieDetailsFA → RenderOutcomeFA) (mF : MovieDetailsFA)
    (h : env m = .items []) (hF : envF mF = .items 0) :
    reconcileIncremental m [] = (m, []) ∧
    processUnfound env m = some (m, []) ∧
    processUnfoundFA envF mF = some (mF, []) := by
  refine ⟨rfl, ?_, ?_⟩
  · simp [processUnfound, h, extractTheatres, reconcileIncremental]
  · simp [processUnfoundFA, hF]

/-- Witness for C7: Scenario C on the sample targets. -/
theorem empty_observations_no_mutation_instance :
    reconcileIncremental sampleTarget [] = (sampleTarget, []) ∧
    processUnfound (fun _ => .items []) sampleTarget = some (sampleTarget, []) ∧
    processUnfoundFA (fun _ => .items 0) sampleTargetFA = some (sampleTargetFA, []) :=
  empty_observations_no_mutation (fun _ => .items []) sampleTarget
    (fun _ => .items 0) sampleTargetFA rfl rfl

/-- Claim C8: a state document that loads successfully re-saves to a document
with identical field values for every target (load-then-save round trip). -/
theorem load_save_roundtrip (doc : JVal) (ms : List MovieDetails)
    (h : decodeMovies doc = some ms) :
    decodeMovies (encodeMovies ms) = some ms := by
  simp [decodeMovies, encodeMovies, decodeMovieElems_encode]

/-- Witness for C8: a document with shuffled keys and a duplicate `name` key
loads, and its re-save decodes to the same targets. -/
theorem load_save_roundtrip_instance :
    decodeMovies docB = some [sampleTarget] ∧
    decodeMovies (encodeMovies [sampleTarget]) = some [sampleTarget] :=
  ⟨by decide, load_save_roundtrip docB [sampleTarget] (by decide)⟩

/-- Claim C9: date formatting is defined exactly on date strings of length at
least 8, producing characters 7-8, 5-6 and 1-4 joined by hyphens
(DD-MM-YYYY from YYYYMMDD); on shorter strings the slice panics. -/
theorem date_format_total_on_yyyymmdd (s : String) :
    (8 ≤ s.length →
      formatDate s = some (String.mk ((s.data.drop 6).take 2) ++ "-" ++
        String.mk ((s.data.drop 4).take 2) ++ "-" ++ String.mk (s.data.take 4))) ∧
    (s.length < 8 → formatDate s = none) := by
  constructor
  · intro h
    simp [formatDate, goSlice, h, show (6:Nat) ≤ s.length by omega,
      show (4:Nat) ≤ s.length by omega]
  · intro h
    simp [formatDate, goSlice, show ¬ (8 ≤ s.length) by omega]

/-- Witness for C9 at the full date "20250319". -/
theorem date_format_total_on_yyyymmdd_instance :
    8 ≤ ("20250319" : String).length ∧ formatDate "20250319" = some "19-03-2025" := by
  refine ⟨by decide, ?_⟩
  have h := (date_format_total_on_yyyymmdd "20250319").1 (by decide)
  rw [h]
  decide

/-- Claim C10: when the name sub-element lookup of an item fails, the
discarded error leaves a nil element whose dereference faults the whole
extraction: the pass neither drops the item nor yields it with an empty
name, and the target's processing aborts. -/
theorem name_lookup_fault :
    extractTheatres [{ nameText := none, showEls := 2 }] = none ∧
    extractTheatres [{ nameText := none, showEls := 2 }] ≠ some [] ∧
    extractTheatres [{ nameText := none, showEls := 2 }] ≠
      some [{ name := "", showCount := 2 }] ∧
    processUnfound (fun _ => RenderOutcome.items [{ nameText := none, showEls := 2 }])
      sampleTarget = none := by
  decide

end BMS
